import Mathlib

/-!
Verification development for the duplicate-image finder
(`duplicate_finder.py`).

The Python source is shallowly embedded as executable Lean definitions.
External collaborators are abstracted as function parameters:

* `phash : Img → Nat → String` — `imagehash.phash`, an arbitrary
  perceptual-hash function of the pixel content (the source treats it as
  a black box, so the theorems hold for every such function);
* `imgOpen : String → Option Img` — `PIL.Image.open`; `none` models an
  `OSError` (undecodable file);
* `fsize : String → Option Nat` — `os.path.getsize`; `none` models a
  `FileNotFoundError`;
* `get_files : String → List String` — `get_image_files`, the recursive
  walk producing image paths of a root.

The MongoDB collection is embedded as a `List Record` in insertion
order; `insert_one` raises `DuplicateKeyError` exactly when a document
with the same `_id` is present, and `delete_one` deletes the first
matching document.  The filesystem (for disposal) is the list of paths
that exist on disk.
-/

namespace DuplicateFinder

/-- A decoded image: pixel grid of height `h` and width `w` plus the
optional EXIF tag table.  `exif = none` models `img._getexif()` being
`None` or raising (caught by the bare `except` in `get_capture_time`);
`exif = some tags` models the tag dictionary already translated through
`ExifTags.TAGS` to names. -/
structure Img where
  w : Nat
  h : Nat
  px : Fin h → Fin w → Nat
  exif : Option (List (String × String))

/-- One right-angle counterclockwise rotation with `expand=True`:
the output pixel at row `i`, column `j` is the input pixel at row `j`,
column `w - 1 - i` (written with `Fin.rev`, whose value is exactly
`w - 1 - i`). -/
def rotateCCW (img : Img) : Img where
  w := img.h
  h := img.w
  px := fun i j => img.px j i.rev
  exif := img.exif

/-- Model of `img.rotate(angle, expand=True)` for the right angles used by
`hash_file` (PIL rotates counterclockwise). -/
def rotate (img : Img) (angle : Nat) : Img :=
  if angle = 90 then rotateCCW img
  else if angle = 180 then rotateCCW (rotateCCW img)
  else if angle = 270 then rotateCCW (rotateCCW (rotateCCW img))
  else img

/-- Model of `get_file_size`: `os.path.getsize` with `FileNotFoundError` caught
and turned into `0`. -/
def get_file_size (fsize : String → Option Nat) (file_name : String) : Nat :=
  match fsize file_name with
  | some n => n
  | none => 0

/-- Model of `get_image_size`: the width and the height, joined with `x`. -/
def get_image_size (img : Img) : String :=
  toString img.w ++ " x " ++ toString img.h

/-- Model of `get_capture_time`: look up `DateTimeOriginal` in the EXIF table;
every failure (no EXIF data, or the key absent) is caught by the bare
`except` and becomes the sentinel `"Time unknown"`. -/
def get_capture_time (img : Img) : String :=
  match img.exif with
  | none => "Time unknown"
  | some tags =>
    match tags.lookup "DateTimeOriginal" with
    | some t => t
    | none => "Time unknown"

/-- One stored document of the `images` collection. -/
structure Record where
  id : String
  hash : String
  file_size : Nat
  image_size : String
  capture_time : String
deriving DecidableEq

/-- Boolean lexicographic order on strings, the order used by Python's
`sorted` on the four hash strings. -/
def strLe (a b : String) : Bool := decide (a ≤ b)

/-- The fingerprint computed inside `hash_file`: hash the image at the
four right-angle rotations (`angle > 0` triggers `img.rotate`), sort
the four hash strings lexicographically, and concatenate them. -/
def fingerprint (phash : Img → Nat → String) (img : Img) (hash_size : Nat) : String :=
  let hashes := [0, 90, 180, 270].map
    (fun angle => phash (if angle > 0 then rotate img angle else img) hash_size)
  String.join (hashes.mergeSort strLe)

/-- Model of `hash_file`: open the image (`none` = `OSError`, the per-file
failure), extract the metadata, and return the record that
`_add_to_database` will insert (`_id` is the file path itself). -/
def hash_file (phash : Img → Nat → String) (imgOpen : String → Option Img)
    (fsize : String → Option Nat) (file : String) (hash_size : Nat) : Option Record :=
  match imgOpen file with
  | none => none
  | some img =>
      some { id := file
             hash := fingerprint phash img hash_size
             file_size := get_file_size fsize file
             image_size := get_image_size img
             capture_time := get_capture_time img }

/-- Model of `hash_files_parallel`: consume `executor.map(hash_file, files,
repeat(HASH_SIZE))` — which yields one result per input file, in input
order — and yield the non-`None` results. -/
def hash_files_parallel (hashf : String → Nat → Option Record) (hash_size : Nat) :
    List String → List Record
  | [] => []
  | f :: fs =>
    match hashf f hash_size with
    | some r => r :: hash_files_parallel hashf hash_size fs
    | none => hash_files_parallel hashf hash_size fs

/-- Model of `_in_database`: the count of documents keyed by this file is positive. -/
def in_database (file : String) (db : List Record) : Bool :=
  decide (0 < db.countP (fun r => r.id == file))

/-- Model of `_add_to_database`: `insert_one` raises `DuplicateKeyError` exactly
when a document with this `_id` exists; the error is caught and logged,
leaving the collection unchanged.  Otherwise the document is appended
(insertion order). -/
def add_to_database (r : Record) (db : List Record) : List Record :=
  if in_database r.id db then db
  else db ++ [r]

/-- Model of `new_image_files`: keep only files not yet in the store.  The
generator is fully consumed by `executor.map` before any result of the
batch is inserted, so every membership test runs against the store as
it was when `add` started on this path. -/
def new_image_files (files : List String) (db : List Record) : List String :=
  files.filter (fun f => ! in_database f db)

/-- Model of `add`: for each path, discover files, drop the ones already
indexed, hash the rest, and insert each successful result. -/
def add (phash : Img → Nat → String) (imgOpen : String → Option Img)
    (fsize : String → Option Nat) (get_files : String → List String)
    (hash_size : Nat) (paths : List String) (db : List Record) : List Record :=
  paths.foldl
    (fun db path =>
      (hash_files_parallel (hash_file phash imgOpen fsize) hash_size
          (new_image_files (get_files path) db)).foldl
        (fun d r => add_to_database r d) db)
    db

/-- The projection pushed by the `$group` stage into `items`. -/
structure Item where
  file_name : String
  file_size : Nat
  image_size : String
  capture_time : String
deriving DecidableEq

/-- One aggregation result: `_id` is the shared hash, `total` the
group size, `items` the member projections in collection order. -/
structure Cluster where
  hash : String
  total : Nat
  items : List Item
deriving DecidableEq

/-- The fields `$push`ed for one record. -/
def project (r : Record) : Item :=
  { file_name := r.id
    file_size := r.file_size
    image_size := r.image_size
    capture_time := r.capture_time }

/-- Python's `==` between the string `"Time unknown"` and an item: the
items are dicts, and `str == dict` is `False` in Python, so this
comparison never succeeds. -/
def str_eq_item (_s : String) (_i : Item) : Bool := false

/-- Model of `same_time`: the source tests `"Time unknown" in items`, i.e.
membership of a string in the list of item dicts (see `str_eq_item`);
then drops the cluster when the set of capture times has more than one
element (`List.dedup` keeps one copy of each distinct value, so its
length is the size of the Python `set`). -/
def same_time (dup : Cluster) : Bool :=
  if dup.items.any (fun i => str_eq_item "Time unknown" i) then true
  else if decide (1 < ((dup.items.map (fun i => i.capture_time)).dedup).length) then false
  else true

/-- Model of `find`: the `$group`-by-hash stage (one group per distinct hash, in
first-occurrence order, members in collection order), the `$match`
stage keeping `total > 1`, and the optional `same_time` filter. -/
def find (db : List Record) (match_time : Bool) : List Cluster :=
  let groups := ((db.map (fun r => r.hash)).dedup).map
    (fun h =>
      let items := (db.filter (fun r => r.hash == h)).map project
      { hash := h, total := items.length, items := items : Cluster })
  let dups := groups.filter (fun g => decide (1 < g.total))
  if match_time then dups.filter (fun d => same_time d) else dups

/-- Disposal-time state: the set of paths that exist on disk, and the
store. -/
structure State where
  disk : List String
  db : List Record
deriving DecidableEq

/-- Model of `os.path.basename`: the part of the path after the last `/`. -/
def basename (p : String) : String :=
  String.mk (p.toList.foldl (fun acc c => if c = '/' then [] else acc ++ [c]) [])

/-- Model of `shutil.move(src, dest)` on a filesystem where `src` exists: `src`
is gone afterwards and `dest` exists. -/
def moveFS (src dest : String) (disk : List String) : List String :=
  if dest ∈ disk.filter (fun p => p != src) then disk.filter (fun p => p != src)
  else disk.filter (fun p => p != src) ++ [dest]

/-- Model of `remove_image`: `delete_one` deletes the first document whose key matches the file. -/
def remove_image (file : String) (db : List Record) : List Record :=
  db.eraseP (fun r => r.id == file)

/-- Model of `delete_picture`: move the file into the trash directory (created
first when absent — directory creation itself is not observable in
this model) and remove its store entry; a missing source file raises
`FileNotFoundError`, which is caught: the move is skipped, the store is
untouched, and `False` is returned. -/
def delete_picture (trash : String) (file_name : String) (st : State) : Bool × State :=
  if file_name ∈ st.disk then
    (true, { disk := moveFS file_name (trash ++ basename file_name) st.disk
             db := remove_image file_name st.db })
  else
    (false, st)

/-- The flattened comprehension
`[x for dup in duplicates for x in dup['items'][1:]]`: every member of
every cluster except the first. -/
def disposal_targets (duplicates : List Cluster) : List Item :=
  duplicates.flatMap (fun dup => dup.items.drop 1)

/-- The sequential evaluation of `delete_picture` over a target list,
threading the filesystem/store state and collecting the booleans. -/
def delete_results (trash : String) (targets : List Item) (st : State) :
    List Bool × State :=
  match targets with
  | [] => ([], st)
  | t :: ts =>
    let r := delete_picture trash t.file_name st
    let rest := delete_results trash ts r.2
    (r.1 :: rest.1, rest.2)

/-- Model of `delete_duplicates`: dispose of every non-first member of every
cluster and report `(results.count(True), len(results))`, printed as
"Deleted X/Y files". -/
def delete_duplicates (trash : String) (duplicates : List Cluster) (st : State) :
    (Nat × Nat) × State :=
  let res := delete_results trash (disposal_targets duplicates) st
  ((res.1.count true, res.1.length), res.2)

/-- Model of `next_power_of_2`: `1 if x == 0 else 2**math.ceil(math.log2(x))`,
with the real-valued `ceil(log2 x)` rendered exactly as `Nat.clog 2 x`. -/
def next_power_of_2 (x : Nat) : Nat :=
  if x = 0 then 1 else 2 ^ Nat.clog 2 x

end DuplicateFinder

namespace DuplicateFinder

/-! ### Helper lemmas -/

theorem rotateCCW_four (img : Img) :
    rotateCCW (rotateCCW (rotateCCW (rotateCCW img))) = img := by
  cases img with
  | mk w h px ex => simp [rotateCCW, Fin.rev_rev]

theorem strLe_trans : ∀ a b c : String, strLe a b = true → strLe b c = true → strLe a c = true := by
  intro a b c hab hbc
  simp only [strLe, decide_eq_true_eq] at hab hbc ⊢
  exact le_trans hab hbc

theorem strLe_total : ∀ a b : String, (strLe a b || strLe b a) = true := by
  intro a b
  simp only [strLe, Bool.or_eq_true, decide_eq_true_eq]
  exact le_total a b

theorem mergeSort_strLe_eq_of_perm {l₁ l₂ : List String} (h : l₁.Perm l₂) :
    l₁.mergeSort strLe = l₂.mergeSort strLe := by
  apply List.eq_of_perm_of_sorted (r := fun a b : String => a ≤ b)
  · exact ((List.mergeSort_perm l₁ strLe).trans h).trans (List.mergeSort_perm l₂ strLe).symm
  · exact (List.sorted_mergeSort strLe_trans strLe_total l₁).imp
      (by intro a b hab; simpa [strLe] using hab)
  · exact (List.sorted_mergeSort strLe_trans strLe_total l₂).imp
      (by intro a b hab; simpa [strLe] using hab)

theorem join_mergeSort_rot1 (a b c d : String) :
    String.join (([b, c, d, a]).mergeSort strLe) = String.join (([a, b, c, d]).mergeSort strLe) :=
  congrArg String.join (mergeSort_strLe_eq_of_perm
    (by simpa using @List.perm_append_comm String [b, c, d] [a]))

theorem join_mergeSort_rot2 (a b c d : String) :
    String.join (([c, d, a, b]).mergeSort strLe) = String.join (([a, b, c, d]).mergeSort strLe) :=
  congrArg String.join (mergeSort_strLe_eq_of_perm
    (by simpa using @List.perm_append_comm String [c, d] [a, b]))

theorem join_mergeSort_rot3 (a b c d : String) :
    String.join (([d, a, b, c]).mergeSort strLe) = String.join (([a, b, c, d]).mergeSort strLe) :=
  congrArg String.join (mergeSort_strLe_eq_of_perm
    (by simpa using @List.perm_append_comm String [d] [a, b, c]))

theorem fingerprint_unfold (phash : Img → Nat → String) (n : Nat) (im : Img) :
    fingerprint phash im n =
      String.join (([phash im n, phash (rotateCCW im) n,
        phash (rotateCCW (rotateCCW im)) n,
        phash (rotateCCW (rotateCCW (rotateCCW im))) n]).mergeSort strLe) := by
  simp [fingerprint, rotate]

theorem hash_files_parallel_filterMap (hashf : String → Nat → Option Record) (n : Nat) :
    ∀ files, hash_files_parallel hashf n files = files.filterMap (fun f => hashf f n) := by
  intro files
  induction files with
  | nil => rfl
  | cons f fs ih =>
    simp only [hash_files_parallel, List.filterMap_cons]
    cases hashf f n <;> simp [ih]

/-! ### Claim theorems -/

/-- C1: the source intends (see its comment "Since we can't know for
sure, better safe than sorry") a cluster to be kept when a member's
capture time is the sentinel, but `"Time unknown" in items` tests the
string against the item dicts, never their `capture_time` values, so it
never holds; a fingerprint-matched pair with capture times
`"2020:01:01"` and `"Time unknown"` is dropped by
`find(store, match_time=True)`, not returned. -/
theorem same_time_unknown_cluster_dropped :
    find [⟨"f1", "ABCD", 1, "1 x 1", "2020:01:01"⟩,
          ⟨"f2", "ABCD", 1, "1 x 1", "Time unknown"⟩] true = [] ∧
    find [⟨"f1", "ABCD", 1, "1 x 1", "2020:01:01"⟩,
          ⟨"f2", "ABCD", 1, "1 x 1", "Time unknown"⟩] false =
      [⟨"ABCD", 2, [⟨"f1", 1, "1 x 1", "2020:01:01"⟩,
                    ⟨"f2", 1, "1 x 1", "Time unknown"⟩]⟩] ∧
    same_time ⟨"ABCD", 2, [⟨"f1", 1, "1 x 1", "2020:01:01"⟩,
                           ⟨"f2", 1, "1 x 1", "Time unknown"⟩]⟩ = false := by
  decide

/-- C4: the fingerprint is invariant under right-angle rotation of the
input image: it is the sorted concatenation of the perceptual hashes of
the four rotations, and rotating the input only permutes that four-hash
list. Holds for every hash function `phash` and every hash size. -/
theorem fingerprint_rotation_invariant (phash : Img → Nat → String) (img : Img) (n : Nat) :
    fingerprint phash (rotate img 90) n = fingerprint phash img n ∧
    fingerprint phash (rotate img 180) n = fingerprint phash img n ∧
    fingerprint phash (rotate img 270) n = fingerprint phash img n := by
  have e90 : rotate img 90 = rotateCCW img := by simp [rotate]
  have e180 : rotate img 180 = rotateCCW (rotateCCW img) := by simp [rotate]
  have e270 : rotate img 270 = rotateCCW (rotateCCW (rotateCCW img)) := by simp [rotate]
  refine ⟨?_, ?_, ?_⟩
  · rw [e90, fingerprint_unfold, fingerprint_unfold, rotateCCW_four img]
    exact join_mergeSort_rot1 _ _ _ _
  · rw [e180, fingerprint_unfold, fingerprint_unfold, rotateCCW_four img]
    exact join_mergeSort_rot2 _ _ _ _
  · rw [e270, fingerprint_unfold, fingerprint_unfold, rotateCCW_four img]
    exact join_mergeSort_rot3 _ _ _ _

/-- C5: `next_power_of_2` maps `0` to `1` and every other requested
size to the least power of two at or above it; in particular
`0 ↦ 1`, `5 ↦ 8`, `8 ↦ 8`, `9 ↦ 16`. -/
theorem next_power_of_2_normalizes :
    next_power_of_2 0 = 1 ∧ next_power_of_2 5 = 8 ∧
    next_power_of_2 8 = 8 ∧ next_power_of_2 9 = 16 ∧
    ∀ x : Nat, x ≤ next_power_of_2 x ∧ (∃ k, next_power_of_2 x = 2 ^ k) ∧
      ∀ m : Nat, x ≤ 2 ^ m → next_power_of_2 x ≤ 2 ^ m := by
  have hb : (1 : Nat) < 2 := by norm_num
  have c5 : Nat.clog 2 5 = 3 := by
    have h1 : Nat.clog 2 5 ≤ 3 := (Nat.le_pow_iff_clog_le hb).mp (by norm_num)
    have h2 : 2 < Nat.clog 2 5 := (Nat.pow_lt_iff_lt_clog hb).mp (by norm_num)
    omega
  have c8 : Nat.clog 2 8 = 3 := by
    have h1 : Nat.clog 2 8 ≤ 3 := (Nat.le_pow_iff_clog_le hb).mp (by norm_num)
    have h2 : 2 < Nat.clog 2 8 := (Nat.pow_lt_iff_lt_clog hb).mp (by norm_num)
    omega
  have c9 : Nat.clog 2 9 = 4 := by
    have h1 : Nat.clog 2 9 ≤ 4 := (Nat.le_pow_iff_clog_le hb).mp (by norm_num)
    have h2 : 3 < Nat.clog 2 9 := (Nat.pow_lt_iff_lt_clog hb).mp (by norm_num)
    omega
  refine ⟨by simp [next_power_of_2], ?_, ?_, ?_, ?_⟩
  · simp [next_power_of_2, c5]
  · simp [next_power_of_2, c8]
  · simp [next_power_of_2, c9]
  · intro x
    by_cases hx : x = 0
    · subst hx
      refine ⟨by simp [next_power_of_2], ⟨0, by simp [next_power_of_2]⟩, ?_⟩
      intro m _
      simpa [next_power_of_2] using Nat.one_le_two_pow
    · refine ⟨?_, ⟨Nat.clog 2 x, by simp [next_power_of_2, hx]⟩, ?_⟩
      · simpa [next_power_of_2, hx] using Nat.le_pow_clog hb x
      · intro m hm
        have := (Nat.le_pow_iff_clog_le hb).mp hm
        simpa [next_power_of_2, hx] using Nat.pow_le_pow_right (by norm_num) this

/-- C5 witness: the general clause applied at `x = 5`, `m = 3`. -/
theorem next_power_of_2_normalizes_witness :
    5 ≤ next_power_of_2 5 ∧ (5 ≤ 2 ^ 3 → next_power_of_2 5 ≤ 2 ^ 3) :=
  ⟨(next_power_of_2_normalizes.2.2.2.2 5).1,
   fun h => ((next_power_of_2_normalizes.2.2.2.2 5).2.2 3 h)⟩

/-- C7: inserting a record whose `_id` is already present leaves the
store exactly as it was (the `DuplicateKeyError` is caught, nothing is
overwritten), and inserting a record with a fresh `_id` appends it. -/
theorem add_to_database_insert_only (r : Record) (db : List Record) :
    (in_database r.id db = true → add_to_database r db = db) ∧
    (in_database r.id db = false →
      add_to_database r db = db ++ [r] ∧
      in_database r.id (add_to_database r db) = true) := by
  constructor
  · intro h
    simp [add_to_database, h]
  · intro h
    have he : add_to_database r db = db ++ [r] := by simp [add_to_database, h]
    refine ⟨he, ?_⟩
    rw [he]
    simp [in_database, List.countP_append, List.countP_cons]

/-- C7 witness: both clauses at a concrete record and store. -/
theorem add_to_database_insert_only_witness :
    add_to_database ⟨"a", "h1", 3, "1 x 1", "t"⟩ [⟨"a", "h1", 3, "1 x 1", "t"⟩] =
      [⟨"a", "h1", 3, "1 x 1", "t"⟩] ∧
    (add_to_database ⟨"a", "h1", 3, "1 x 1", "t"⟩ [] = [] ++ [⟨"a", "h1", 3, "1 x 1", "t"⟩] ∧
      in_database (Record.id ⟨"a", "h1", 3, "1 x 1", "t"⟩)
        (add_to_database ⟨"a", "h1", 3, "1 x 1", "t"⟩ []) = true) :=
  ⟨(add_to_database_insert_only ⟨"a", "h1", 3, "1 x 1", "t"⟩
      [⟨"a", "h1", 3, "1 x 1", "t"⟩]).1 (by decide),
   (add_to_database_insert_only ⟨"a", "h1", 3, "1 x 1", "t"⟩ []).2 (by decide)⟩

/-- C8: every cluster returned by `find` has more than one member
(groups of size 1 are removed by the `$match` stage, whose counter is
the length of `items`), and on a store of 3 records where two share a
fingerprint, `find` with `match_time` unset returns exactly the one
size-2 cluster. -/
theorem find_clusters_size_gt_one :
    (∀ (db : List Record) (mt : Bool) (c : Cluster), c ∈ find db mt → 1 < c.items.length) ∧
    find [⟨"f1", "ABCD", 7, "1 x 1", "t1"⟩, ⟨"f2", "ABCD", 8, "2 x 2", "t2"⟩,
          ⟨"f3", "WXYZ", 9, "3 x 3", "t3"⟩] false =
      [⟨"ABCD", 2, [⟨"f1", 7, "1 x 1", "t1"⟩, ⟨"f2", 8, "2 x 2", "t2"⟩]⟩] := by
  constructor
  · intro db mt c hc
    have hc' : c ∈ (((db.map (fun r => r.hash)).dedup).map
        (fun h =>
          let items := (db.filter (fun r => r.hash == h)).map project
          { hash := h, total := items.length, items := items : Cluster })).filter
        (fun g => decide (1 < g.total)) := by
      cases mt
      · simpa [find] using hc
      · simp only [find] at hc
        exact (List.mem_filter.mp hc).1
    obtain ⟨hmem, hpred⟩ := List.mem_filter.mp hc'
    obtain ⟨h, _, rfl⟩ := List.mem_map.mp hmem
    exact of_decide_eq_true hpred
  · decide

/-- C8 witness: the general clause applied to the concrete store of the
second clause. -/
theorem find_clusters_size_gt_one_witness :
    1 < (Cluster.items ⟨"ABCD", 2, [⟨"f1", 7, "1 x 1", "t1"⟩, ⟨"f2", 8, "2 x 2", "t2"⟩]⟩).length :=
  find_clusters_size_gt_one.1
    [⟨"f1", "ABCD", 7, "1 x 1", "t1"⟩, ⟨"f2", "ABCD", 8, "2 x 2", "t2"⟩,
     ⟨"f3", "WXYZ", 9, "3 x 3", "t3"⟩] false
    ⟨"ABCD", 2, [⟨"f1", 7, "1 x 1", "t1"⟩, ⟨"f2", 8, "2 x 2", "t2"⟩]⟩
    (by decide)

/-- C9: capture-time extraction is total and falls back to the
sentinel `"Time unknown"` when the EXIF data is absent or has no
`DateTimeOriginal` entry; a missing file yields byte size `0` rather
than an error; and whenever the image decodes, `hash_file` produces a
result — metadata extraction never aborts the per-file hash. -/
theorem metadata_extraction_total :
    (∀ img : Img, img.exif = none → get_capture_time img = "Time unknown") ∧
    (∀ (img : Img) (tags : List (String × String)), img.exif = some tags →
      tags.lookup "DateTimeOriginal" = none → get_capture_time img = "Time unknown") ∧
    (∀ (img : Img) (tags : List (String × String)) (t : String), img.exif = some tags →
      tags.lookup "DateTimeOriginal" = some t → get_capture_time img = t) ∧
    (∀ (fsize : String → Option Nat) (file : String), fsize file = none →
      get_file_size fsize file = 0) ∧
    (∀ (phash : Img → Nat → String) (imgOpen : String → Option Img)
       (fsize : String → Option Nat) (file : String) (n : Nat) (img : Img),
      imgOpen file = some img →
      (hash_file phash imgOpen fsize file n).isSome = true) := by
  refine ⟨?_, ?_, ?_, ?_, ?_⟩
  · intro img h
    simp [get_capture_time, h]
  · intro img tags h hl
    simp [get_capture_time, h, hl]
  · intro img tags t h hl
    simp [get_capture_time, h, hl]
  · intro fsize file h
    simp [get_file_size, h]
  · intro phash imgOpen fsize file n img h
    simp [hash_file, h]

/-- C9 witness: all clauses at concrete images, tag tables and file
tables. -/
theorem metadata_extraction_total_witness :
    get_capture_time ⟨1, 1, fun _ _ => 0, none⟩ = "Time unknown" ∧
    get_capture_time ⟨1, 1, fun _ _ => 0, some [("Model", "X")]⟩ = "Time unknown" ∧
    get_capture_time ⟨1, 1, fun _ _ => 0, some [("DateTimeOriginal", "2020:01:01")]⟩ =
      "2020:01:01" ∧
    get_file_size (fun _ => none) "gone.jpg" = 0 ∧
    (hash_file (fun _ _ => "p") (fun _ => some ⟨1, 1, fun _ _ => 0, none⟩)
      (fun _ => none) "a.jpg" 8).isSome = true :=
  ⟨metadata_extraction_total.1 ⟨1, 1, fun _ _ => 0, none⟩ rfl,
   metadata_extraction_total.2.1 ⟨1, 1, fun _ _ => 0, some [("Model", "X")]⟩ [("Model", "X")]
     rfl rfl,
   metadata_extraction_total.2.2.1 ⟨1, 1, fun _ _ => 0, some [("DateTimeOriginal", "2020:01:01")]⟩
     [("DateTimeOriginal", "2020:01:01")] "2020:01:01" rfl rfl,
   metadata_extraction_total.2.2.2.1 (fun _ => none) "gone.jpg" rfl,
   metadata_extraction_total.2.2.2.2 (fun _ _ => "p") (fun _ => some ⟨1, 1, fun _ _ => 0, none⟩)
     (fun _ => none) "a.jpg" 8 ⟨1, 1, fun _ _ => 0, none⟩ rfl⟩

/-- C10: the parallel hashing pipeline yields exactly the successful
results, one per file that hashed, in the same relative order as the
input list: consuming `executor.map` (an order-preserving map over the
input sequence) and dropping `None` is `List.filterMap`. -/
theorem hash_files_parallel_order_preserving (hashf : String → Nat → Option Record)
    (hash_size : Nat) (files : List String) :
    hash_files_parallel hashf hash_size files = files.filterMap (fun f => hashf f hash_size) :=
  hash_files_parallel_filterMap hashf hash_size files

end DuplicateFinder

namespace DuplicateFinder

/-! ### Indexing lemmas (C6) -/

theorem in_database_mono (f : String) (r : Record) (db : List Record)
    (h : in_database f db = true) : in_database f (add_to_database r db) = true := by
  unfold add_to_database
  split
  · exact h
  · simp only [in_database, decide_eq_true_eq, List.countP_append] at h ⊢
    omega

theorem in_database_foldl (f : String) (rs : List Record) (db : List Record)
    (h : in_database f db = true) :
    in_database f (rs.foldl (fun d r => add_to_database r d) db) = true := by
  induction rs generalizing db with
  | nil => exact h
  | cons r rs ih => exact ih _ (in_database_mono f r db h)

theorem in_database_self (r : Record) (db : List Record) :
    in_database r.id (add_to_database r db) = true := by
  unfold add_to_database
  split
  · rename_i h
    exact h
  · simp [in_database, List.countP_append, List.countP_cons]

theorem mem_foldl_in_database (rs : List Record) (r : Record) (db : List Record)
    (h : r ∈ rs) :
    in_database r.id (rs.foldl (fun d x => add_to_database x d) db) = true := by
  induction rs generalizing db with
  | nil => cases h
  | cons x xs ih =>
    rcases List.mem_cons.mp h with h | h
    · subst h
      simp only [List.foldl_cons]
      exact in_database_foldl r.id xs _ (in_database_self r db)
    · simp only [List.foldl_cons]
      exact ih _ h

theorem hash_file_id (phash : Img → Nat → String) (imgOpen : String → Option Img)
    (fsize : String → Option Nat) (f : String) (hs : Nat) (r : Record)
    (h : hash_file phash imgOpen fsize f hs = some r) : r.id = f := by
  unfold hash_file at h
  cases ho : imgOpen f with
  | none => rw [ho] at h; simp at h
  | some img =>
    rw [ho] at h
    simp only [Option.some.injEq] at h
    subst h
    rfl

theorem run_body_mem (hf : String → Option Record)
    (hid : ∀ f r, hf f = some r → r.id = f) (files : List String) (db : List Record)
    (f : String) (hmem : f ∈ files) (hsome : (hf f).isSome = true) :
    in_database f
      (((new_image_files files db).filterMap hf).foldl
        (fun d r => add_to_database r d) db) = true := by
  cases hdb : in_database f db with
  | true => exact in_database_foldl f _ db hdb
  | false =>
    obtain ⟨r, hr⟩ := Option.isSome_iff_exists.mp hsome
    have hfm : r ∈ (new_image_files files db).filterMap hf :=
      List.mem_filterMap.mpr ⟨f, List.mem_filter.mpr ⟨hmem, by simp [new_image_files, hdb]⟩, hr⟩
    have hin := mem_foldl_in_database _ r db hfm
    rwa [hid f r hr] at hin

theorem run_body_noop (hf : String → Option Record) (files : List String) (db : List Record)
    (h : ∀ f ∈ files, (hf f).isSome = true → in_database f db = true) :
    ((new_image_files files db).filterMap hf).foldl
      (fun d r => add_to_database r d) db = db := by
  have hnil : (new_image_files files db).filterMap hf = [] := by
    rw [List.filterMap_eq_nil_iff]
    intro f hf_mem
    have hm := List.mem_filter.mp hf_mem
    have hin : in_database f db = false := by simpa using hm.2
    cases hopt : hf f with
    | none => rfl
    | some r =>
      have htrue : in_database f db = true := h f hm.1 (by simp [hopt])
      simp [hin] at htrue
  rw [hnil]
  rfl

/-- C6: running `add` on the same path twice against the same store
returns the store of the first run unchanged — the existence check
filters out every file the first run indexed (and files that failed to
hash, failing again deterministically, insert nothing) — so the record
count is the same as after running once. -/
theorem add_twice_eq_add_once (phash : Img → Nat → String) (imgOpen : String → Option Img)
    (fsize : String → Option Nat) (get_files : String → List String)
    (hash_size : Nat) (p : String) (db : List Record) :
    add phash imgOpen fsize get_files hash_size [p]
        (add phash imgOpen fsize get_files hash_size [p] db) =
      add phash imgOpen fsize get_files hash_size [p] db ∧
    (add phash imgOpen fsize get_files hash_size [p]
        (add phash imgOpen fsize get_files hash_size [p] db)).length =
      (add phash imgOpen fsize get_files hash_size [p] db).length := by
  have hid : ∀ f r, hash_file phash imgOpen fsize f hash_size = some r → r.id = f :=
    fun f r h => hash_file_id phash imgOpen fsize f hash_size r h
  have hbody : ∀ d : List Record, add phash imgOpen fsize get_files hash_size [p] d =
      ((new_image_files (get_files p) d).filterMap
        (fun f => hash_file phash imgOpen fsize f hash_size)).foldl
        (fun d r => add_to_database r d) d := by
    intro d
    simp [add, hash_files_parallel_filterMap]
  have hmain : add phash imgOpen fsize get_files hash_size [p]
      (add phash imgOpen fsize get_files hash_size [p] db) =
      add phash imgOpen fsize get_files hash_size [p] db := by
    rw [hbody (add phash imgOpen fsize get_files hash_size [p] db)]
    apply run_body_noop
    intro f hf hsome
    rw [hbody db]
    exact run_body_mem _ hid (get_files p) db f hf hsome
  exact ⟨hmain, by rw [hmain]⟩

end DuplicateFinder

namespace DuplicateFinder

/-! ### Disposal lemmas (C2, C3) -/

theorem mem_moveFS (src dest x : String) (disk : List String) :
    x ∈ moveFS src dest disk ↔ (x ∈ disk ∧ ¬ x = src) ∨ x = dest := by
  unfold moveFS
  split
  · rename_i h
    simp only [List.mem_filter, bne_iff_ne, ne_eq] at h ⊢
    exact ⟨fun hx => Or.inl hx, fun hx => hx.elim id (fun he => he ▸ h)⟩
  · simp [List.mem_filter, bne_iff_ne]

theorem mem_eraseP_of_pred_false {α : Type} {p : α → Bool} {l : List α} {a : α}
    (h : a ∈ l) (hp : p a = false) : a ∈ l.eraseP p := by
  induction l with
  | nil => cases h
  | cons x xs ih =>
    rw [List.eraseP_cons]
    rcases List.mem_cons.mp h with rfl | hmem
    · simp [hp]
    · cases hx : p x
      · simpa [hx] using Or.inr (ih hmem)
      · simpa [hx] using hmem

theorem eraseP_id_no_match {l : List Record} {f : String}
    (hnd : (l.map (fun r => r.id)).Nodup) (r : Record)
    (h : r ∈ l.eraseP (fun x => x.id == f)) : ¬ r.id = f := by
  induction l with
  | nil => cases h
  | cons x xs ih =>
    rw [List.eraseP_cons] at h
    obtain ⟨hx_nmem, hxs_nd⟩ :
        (∀ y ∈ xs, ¬ y.id = x.id) ∧ (xs.map (fun r => r.id)).Nodup := by
      simpa using hnd
    cases hx : (x.id == f) with
    | true =>
      have hxf : x.id = f := by simpa using hx
      intro hrf
      have hr_mem : r ∈ xs := by simpa [hx] using h
      exact hx_nmem r hr_mem (hrf.trans hxf.symm)
    | false =>
      have h' : r = x ∨ r ∈ xs.eraseP (fun x => x.id == f) := by simpa [hx] using h
      rcases h' with rfl | hmem
      · simpa using hx
      · exact ih hxs_nd hmem

theorem remove_image_sublist (f : String) (db : List Record) :
    (remove_image f db).Sublist db :=
  List.eraseP_sublist db

theorem delete_results_spec (trash : String) :
    ∀ (ts : List Item) (st : State),
    (ts.map (fun t => t.file_name)).Nodup →
    (∀ t ∈ ts, t.file_name ∈ st.disk) →
    (∀ t ∈ ts, ∀ u ∈ ts, ¬ trash ++ basename t.file_name = u.file_name) →
    (st.db.map (fun r => r.id)).Nodup →
    (∀ t ∈ ts, ¬ t.file_name ∈ (delete_results trash ts st).2.disk) ∧
    (∀ t ∈ ts, trash ++ basename t.file_name ∈ (delete_results trash ts st).2.disk) ∧
    (∀ t ∈ ts, ∀ r ∈ (delete_results trash ts st).2.db, ¬ r.id = t.file_name) ∧
    (∀ x ∈ st.disk, ¬ x ∈ ts.map (fun t => t.file_name) →
      x ∈ (delete_results trash ts st).2.disk) ∧
    (∀ x, ¬ x ∈ st.disk → (∀ t ∈ ts, ¬ x = trash ++ basename t.file_name) →
      ¬ x ∈ (delete_results trash ts st).2.disk) ∧
    (∀ r ∈ st.db, ¬ r.id ∈ ts.map (fun t => t.file_name) →
      r ∈ (delete_results trash ts st).2.db) ∧
    (delete_results trash ts st).2.db.Sublist st.db := by
  intro ts
  induction ts with
  | nil =>
    intro st _ _ _ _
    refine ⟨by simp, by simp, by simp, ?_, ?_, ?_, List.Sublist.refl _⟩
    · intro x hx _
      exact hx
    · intro x hx _
      exact hx
    · intro r hr _
      exact hr
  | cons t ts ih =>
    intro st hnd hdisk hsep hdb
    have hd : t.file_name ∈ st.disk := hdisk t (List.mem_cons_self t ts)
    have hstep : delete_picture trash t.file_name st =
        (true, { disk := moveFS t.file_name (trash ++ basename t.file_name) st.disk
                 db := remove_image t.file_name st.db }) := by
      unfold delete_picture
      rw [if_pos hd]
    set st1 : State :=
      { disk := moveFS t.file_name (trash ++ basename t.file_name) st.disk
        db := remove_image t.file_name st.db } with hst1
    have hres : (delete_results trash (t :: ts) st).2 = (delete_results trash ts st1).2 := by
      simp only [delete_results, hstep]
    obtain ⟨htail_ne, hnd_tail⟩ :
        (∀ u ∈ ts, ¬ u.file_name = t.file_name) ∧
          (ts.map (fun t => t.file_name)).Nodup := by
      simpa using hnd
    have hdisk1 : ∀ u ∈ ts, u.file_name ∈ st1.disk := by
      intro u hu
      rw [hst1]
      exact (mem_moveFS _ _ _ _).mpr (Or.inl ⟨hdisk u (List.mem_cons_of_mem t hu), htail_ne u hu⟩)
    have hsep1 : ∀ u ∈ ts, ∀ v ∈ ts, ¬ trash ++ basename u.file_name = v.file_name := by
      intro u hu v hv
      exact hsep u (List.mem_cons_of_mem t hu) v (List.mem_cons_of_mem t hv)
    have hdb1 : (st1.db.map (fun r => r.id)).Nodup := by
      rw [hst1]
      exact List.Nodup.sublist ((remove_image_sublist t.file_name st.db).map _) hdb
    obtain ⟨ih1, ih2, ih3, ih4, ih5, ih6, ih7⟩ := ih st1 hnd_tail hdisk1 hsep1 hdb1
    have hdest_t_ne : ¬ trash ++ basename t.file_name = t.file_name :=
      hsep t (List.mem_cons_self t ts) t (List.mem_cons_self t ts)
    refine ⟨?_, ?_, ?_, ?_, ?_, ?_, ?_⟩
    · intro u hu
      rw [hres]
      rcases List.mem_cons.mp hu with rfl | hu'
      · apply ih5
        · rw [hst1]
          intro hmem
          rcases (mem_moveFS _ _ _ _).mp hmem with ⟨_, hne⟩ | he
          · exact hne rfl
          · exact hdest_t_ne he.symm
        · intro v hv he
          exact hsep v (List.mem_cons_of_mem u hv) u (List.mem_cons_self u ts) he.symm
      · exact ih1 u hu'
    · intro u hu
      rw [hres]
      rcases List.mem_cons.mp hu with rfl | hu'
      · apply ih4
        · rw [hst1]
          exact (mem_moveFS _ _ _ _).mpr (Or.inr rfl)
        · intro hmem
          obtain ⟨v, hv, he⟩ := List.mem_map.mp hmem
          exact hsep u (List.mem_cons_self u ts) v (List.mem_cons_of_mem u hv) he.symm
      · exact ih2 u hu'
    · intro u hu r hr
      rw [hres] at hr
      rcases List.mem_cons.mp hu with rfl | hu'
      · have hr1 : r ∈ st1.db := ih7.mem hr
        rw [hst1] at hr1
        exact eraseP_id_no_match hdb r hr1
      · exact ih3 u hu' r hr
    · intro x hx hnx
      rw [hres]
      have hx_ne : ¬ x = t.file_name := by
        intro he
        exact hnx (by simp [he])
      apply ih4
      · rw [hst1]
        exact (mem_moveFS _ _ _ _).mpr (Or.inl ⟨hx, hx_ne⟩)
      · intro hmem
        exact hnx (by simpa using Or.inr hmem)
    · intro x hx hsepx
      rw [hres]
      apply ih5
      · rw [hst1]
        intro hmem
        rcases (mem_moveFS _ _ _ _).mp hmem with ⟨hmem', _⟩ | he
        · exact hx hmem'
        · exact hsepx t (List.mem_cons_self t ts) he
      · intro u hu
        exact hsepx u (List.mem_cons_of_mem t hu)
    · intro r hr hnr
      rw [hres]
      have hr_ne : (fun x => x.id == t.file_name) r = false := by
        simp only [beq_eq_false_iff_ne, ne_eq]
        intro he
        exact hnr (by simp [he])
      apply ih6
      · rw [hst1]
        exact mem_eraseP_of_pred_false hr hr_ne
      · intro hmem
        exact hnr (by simpa using Or.inr hmem)
    · rw [hres]
      exact ih7.trans (by rw [hst1]; exact remove_image_sublist t.file_name st.db)

end DuplicateFinder

namespace DuplicateFinder

/-- C2: disposal moves every member except the first of each cluster
to the trash path and removes that member's store entry, while the
first member (the keeper) stays on disk and keeps its store entry.
Hypotheses: the target file names are distinct, all targets are on
disk, trash destinations do not collide with member paths, and store
ids are unique (the store's `_id` key invariant). -/
theorem delete_duplicates_keeper_rule (trash : String) (dups : List Cluster) (st : State)
    (hnd : ((disposal_targets dups).map (fun t => t.file_name)).Nodup)
    (hdisk : ∀ t ∈ disposal_targets dups, t.file_name ∈ st.disk)
    (hsep : ∀ t ∈ disposal_targets dups, ∀ u ∈ disposal_targets dups,
        ¬ trash ++ basename t.file_name = u.file_name)
    (hdb : (st.db.map (fun r => r.id)).Nodup)
    (hkeep : ∀ d ∈ dups, ∀ k, d.items.head? = some k →
        ¬ k.file_name ∈ (disposal_targets dups).map (fun t => t.file_name)) :
    (∀ d ∈ dups, ∀ t ∈ d.items.drop 1,
       ¬ t.file_name ∈ (delete_duplicates trash dups st).2.disk ∧
       trash ++ basename t.file_name ∈ (delete_duplicates trash dups st).2.disk ∧
       ∀ r ∈ (delete_duplicates trash dups st).2.db, ¬ r.id = t.file_name) ∧
    (∀ d ∈ dups, ∀ k, d.items.head? = some k →
       (k.file_name ∈ st.disk → k.file_name ∈ (delete_duplicates trash dups st).2.disk) ∧
       (∀ r ∈ st.db, r.id = k.file_name → r ∈ (delete_duplicates trash dups st).2.db)) := by
  have hdd : (delete_duplicates trash dups st).2 =
      (delete_results trash (disposal_targets dups) st).2 := rfl
  obtain ⟨s1, s2, s3, s4, s5, s6, s7⟩ :=
    delete_results_spec trash (disposal_targets dups) st hnd hdisk hsep hdb
  constructor
  · intro d hd t ht
    have htm : t ∈ disposal_targets dups := List.mem_flatMap.mpr ⟨d, hd, ht⟩
    exact ⟨by rw [hdd]; exact s1 t htm, by rw [hdd]; exact s2 t htm,
           by rw [hdd]; exact s3 t htm⟩
  · intro d hd k hk
    have hkn := hkeep d hd k hk
    constructor
    · intro hkd
      rw [hdd]
      exact s4 k.file_name hkd hkn
    · intro r hr hre
      rw [hdd]
      apply s6 r hr
      rw [hre]
      exact hkn

/-- C2 witness: one cluster with members `[A, B, C]` on paths
`a`, `b`, `c`: `b` and `c` are moved to `T/` and lose their store
entries; `a` is untouched. -/
theorem delete_duplicates_keeper_rule_witness :
    (∀ d ∈ [(⟨"h1", 3, [⟨"a", 0, "", ""⟩, ⟨"b", 0, "", ""⟩, ⟨"c", 0, "", ""⟩]⟩ : Cluster)],
       ∀ t ∈ d.items.drop 1,
       ¬ t.file_name ∈ (delete_duplicates "T/"
           [⟨"h1", 3, [⟨"a", 0, "", ""⟩, ⟨"b", 0, "", ""⟩, ⟨"c", 0, "", ""⟩]⟩]
           ⟨["a", "b", "c"],
            [⟨"a", "h1", 0, "", ""⟩, ⟨"b", "h1", 0, "", ""⟩, ⟨"c", "h1", 0, "", ""⟩]⟩).2.disk ∧
       "T/" ++ basename t.file_name ∈ (delete_duplicates "T/"
           [⟨"h1", 3, [⟨"a", 0, "", ""⟩, ⟨"b", 0, "", ""⟩, ⟨"c", 0, "", ""⟩]⟩]
           ⟨["a", "b", "c"],
            [⟨"a", "h1", 0, "", ""⟩, ⟨"b", "h1", 0, "", ""⟩, ⟨"c", "h1", 0, "", ""⟩]⟩).2.disk ∧
       ∀ r ∈ (delete_duplicates "T/"
           [⟨"h1", 3, [⟨"a", 0, "", ""⟩, ⟨"b", 0, "", ""⟩, ⟨"c", 0, "", ""⟩]⟩]
           ⟨["a", "b", "c"],
            [⟨"a", "h1", 0, "", ""⟩, ⟨"b", "h1", 0, "", ""⟩, ⟨"c", "h1", 0, "", ""⟩]⟩).2.db,
         ¬ r.id = t.file_name) ∧
    (∀ d ∈ [(⟨"h1", 3, [⟨"a", 0, "", ""⟩, ⟨"b", 0, "", ""⟩, ⟨"c", 0, "", ""⟩]⟩ : Cluster)],
       ∀ k, d.items.head? = some k →
       (k.file_name ∈
           (⟨["a", "b", "c"],
             [⟨"a", "h1", 0, "", ""⟩, ⟨"b", "h1", 0, "", ""⟩, ⟨"c", "h1", 0, "", ""⟩]⟩ :
               State).disk →
         k.file_name ∈ (delete_duplicates "T/"
           [⟨"h1", 3, [⟨"a", 0, "", ""⟩, ⟨"b", 0, "", ""⟩, ⟨"c", 0, "", ""⟩]⟩]
           ⟨["a", "b", "c"],
            [⟨"a", "h1", 0, "", ""⟩, ⟨"b", "h1", 0, "", ""⟩, ⟨"c", "h1", 0, "", ""⟩]⟩).2.disk) ∧
       (∀ r ∈ (⟨["a", "b", "c"],
             [⟨"a", "h1", 0, "", ""⟩, ⟨"b", "h1", 0, "", ""⟩, ⟨"c", "h1", 0, "", ""⟩]⟩ :
               State).db,
         r.id = k.file_name → r ∈ (delete_duplicates "T/"
           [⟨"h1", 3, [⟨"a", 0, "", ""⟩, ⟨"b", 0, "", ""⟩, ⟨"c", 0, "", ""⟩]⟩]
           ⟨["a", "b", "c"],
            [⟨"a", "h1", 0, "", ""⟩, ⟨"b", "h1", 0, "", ""⟩, ⟨"c", "h1", 0, "", ""⟩]⟩).2.db)) :=
  delete_duplicates_keeper_rule "T/"
    [⟨"h1", 3, [⟨"a", 0, "", ""⟩, ⟨"b", 0, "", ""⟩, ⟨"c", 0, "", ""⟩]⟩]
    ⟨["a", "b", "c"],
     [⟨"a", "h1", 0, "", ""⟩, ⟨"b", "h1", 0, "", ""⟩, ⟨"c", "h1", 0, "", ""⟩]⟩
    (by decide) (by decide) (by decide) (by decide)
    (by
      intro d hd k hk
      rw [List.mem_singleton] at hd
      subst hd
      cases hk
      decide)

/-- C3: a member whose source file is missing on disk is a fail-soft
no-op: `delete_picture` skips the move, leaves the state (in
particular that member's store entry) untouched and returns `False`;
the disposal loop records the failure and continues with the remaining
members exactly as it would from the unchanged state, so one missing
file adds one failure to the aggregate count and never blocks the
rest. -/
theorem delete_picture_fail_soft :
    (∀ (trash f : String) (st : State), ¬ f ∈ st.disk →
       delete_picture trash f st = (false, st)) ∧
    (∀ (trash : String) (t : Item) (ts : List Item) (st : State),
       ¬ t.file_name ∈ st.disk →
       delete_results trash (t :: ts) st =
         (false :: (delete_results trash ts st).1, (delete_results trash ts st).2)) ∧
    (∀ (trash : String) (t : Item) (ts : List Item) (st : State),
       ¬ t.file_name ∈ st.disk →
       (delete_results trash (t :: ts) st).1.count true =
         (delete_results trash ts st).1.count true ∧
       (delete_results trash (t :: ts) st).1.length =
         (delete_results trash ts st).1.length + 1) := by
  have h1 : ∀ (trash f : String) (st : State), ¬ f ∈ st.disk →
      delete_picture trash f st = (false, st) := by
    intro trash f st h
    unfold delete_picture
    rw [if_neg h]
  have h2 : ∀ (trash : String) (t : Item) (ts : List Item) (st : State),
      ¬ t.file_name ∈ st.disk →
      delete_results trash (t :: ts) st =
        (false :: (delete_results trash ts st).1, (delete_results trash ts st).2) := by
    intro trash t ts st h
    simp only [delete_results, h1 trash t.file_name st h]
  refine ⟨h1, h2, ?_⟩
  intro trash t ts st h
  rw [h2 trash t ts st h]
  simp [List.count_cons]

/-- C3 witness: with `b` missing from disk and `c` present, the `b`
step is a recorded failure leaving the state unchanged, and the rest
of the batch proceeds. -/
theorem delete_picture_fail_soft_witness :
    delete_picture "T/" "b" ⟨["c"], [⟨"b", "h1", 0, "", ""⟩]⟩ =
      (false, ⟨["c"], [⟨"b", "h1", 0, "", ""⟩]⟩) ∧
    delete_results "T/" [⟨"b", 0, "", ""⟩, ⟨"c", 0, "", ""⟩]
        ⟨["c"], [⟨"b", "h1", 0, "", ""⟩]⟩ =
      (false :: (delete_results "T/" [⟨"c", 0, "", ""⟩]
          ⟨["c"], [⟨"b", "h1", 0, "", ""⟩]⟩).1,
        (delete_results "T/" [⟨"c", 0, "", ""⟩] ⟨["c"], [⟨"b", "h1", 0, "", ""⟩]⟩).2) ∧
    (delete_results "T/" [⟨"b", 0, "", ""⟩, ⟨"c", 0, "", ""⟩]
        ⟨["c"], [⟨"b", "h1", 0, "", ""⟩]⟩).1.count true =
      (delete_results "T/" [⟨"c", 0, "", ""⟩]
        ⟨["c"], [⟨"b", "h1", 0, "", ""⟩]⟩).1.count true ∧
    (delete_results "T/" [⟨"b", 0, "", ""⟩, ⟨"c", 0, "", ""⟩]
        ⟨["c"], [⟨"b", "h1", 0, "", ""⟩]⟩).1.length =
      (delete_results "T/" [⟨"c", 0, "", ""⟩]
        ⟨["c"], [⟨"b", "h1", 0, "", ""⟩]⟩).1.length + 1 :=
  ⟨delete_picture_fail_soft.1 "T/" "b" ⟨["c"], [⟨"b", "h1", 0, "", ""⟩]⟩ (by decide),
   delete_picture_fail_soft.2.1 "T/" ⟨"b", 0, "", ""⟩ [⟨"c", 0, "", ""⟩]
     ⟨["c"], [⟨"b", "h1", 0, "", ""⟩]⟩ (by decide),
   delete_picture_fail_soft.2.2 "T/" ⟨"b", 0, "", ""⟩ [⟨"c", 0, "", ""⟩]
     ⟨["c"], [⟨"b", "h1", 0, "", ""⟩]⟩ (by decide)⟩

end DuplicateFinder
